import Mathlib

/-!
Verification of the `vocinvo` vocabulary reader (`revovo.py`) and the
external validator (`validator/vocvalidator.py`).

Python strings are modelled as `List Char`, Python `None`-able strings as
`Option (List Char)`, Python dicts as insertion-ordered association lists,
and raising code as `Except`-valued functions so that `KeyError`,
`AttributeError` and `TypeError` paths of the source are explicit.
-/

namespace Revovo

/-- A Python string, modelled as its list of characters. -/
abbrev Str := List Char

/-- Shorthand turning a Lean string literal into the `Str` model. -/
def str (s : String) : Str := s.toList

/-- A Python string-or-None value (e.g. the object slot of a triple). -/
abbrev Obj := Option Str

/-- An RDF triple `(subject, predicate, object)` as used by `revovo.py`;
the object may be `None` (flag triples such as `ivoasem:deprecated`). -/
abbrev Triple := Str × Str × Obj

/-- Python `s.startswith(p)`. -/
def startswith (s p : Str) : Bool := List.isPrefixOf p s

/-- The exception classes the embedded code can raise. -/
inductive PyError where
  | keyError
  | attributeError
  | typeError
  deriving DecidableEq, Repr

instance instDecEqExcept [DecidableEq ε] [DecidableEq α] :
    DecidableEq (Except ε α)
  | .ok x, .ok y =>
    if h : x = y then .isTrue (by rw [h])
    else .isFalse (by intro hh; injection hh; contradiction)
  | .ok _, .error _ => .isFalse (by intro hh; injection hh)
  | .error _, .ok _ => .isFalse (by intro hh; injection hh)
  | .error m, .error n =>
    if h : m = n then .isTrue (by rw [h])
    else .isFalse (by intro hh; injection hh; contradiction)

/-! ### Insertion-ordered dictionaries (Python `dict`) -/

/-- `d[k] = v` on a Python dict: update in place if the key exists,
else append the new binding at the end. -/
def dictInsert [DecidableEq α] (k : α) (v : β) : List (α × β) → List (α × β)
  | [] => [(k, v)]
  | p :: rest => if p.1 = k then (k, v) :: rest else p :: dictInsert k v rest

/-- Lookup in a Python dict (`d.get(k)` / `d[k]` before raising). -/
def dictGet? [DecidableEq α] : List (α × β) → α → Option β
  | [], _ => none
  | p :: rest, k => if p.1 = k then some p.2 else dictGet? rest k

/-- Python `dict(pairs)`: last value for a repeated key wins. -/
def dictOfPairs [DecidableEq α] (ps : List (α × β)) : List (α × β) :=
  ps.foldl (fun d p => dictInsert p.1 p.2 d) []

/-- Python `labels.get(s)` where the stored values are themselves
string-or-None: a missing key and a stored `None` both give `None`. -/
def pyGet (d : List (Str × Obj)) (k : Str) : Obj :=
  (dictGet? d k).getD none

/-- `d.setdefault(k, []).append(v)` on a dict of lists: append `v` to the
entry of `k`, creating the entry at the end of the dict if missing. -/
def groupAppend [DecidableEq α] (k : α) (v : β) :
    List (α × List β) → List (α × List β)
  | [] => [(k, [v])]
  | p :: rest => if p.1 = k then (p.1, p.2 ++ [v]) :: rest
      else p :: groupAppend k v rest

/-- `d.get(k, [])` on a dict of lists. -/
def groupGet [DecidableEq α] : List (α × List β) → α → List β
  | [], _ => []
  | p :: rest, k => if p.1 = k then p.2 else groupGet rest k

/-! ### By-property grouping (`Vocabulary._build_vocabulary`, first loop) -/

/-- The by-property table of `_build_vocabulary`: triples grouped into
`predicate -> ordered list of (subject, object)` via `setdefault`/`append`. -/
def buildByProperty (ts : List Triple) : List (Str × List (Str × Obj)) :=
  ts.foldl (fun bp t => groupAppend t.2.1 (t.1, t.2.2) bp) []

/-- The value of the last pair for a key in a list of pairs (the value a
Python dict built from those pairs would hold for that key). -/
def lastVal [DecidableEq α] (k : α) : List (α × β) → Option β
  | [] => none
  | p :: ps =>
    match lastVal k ps with
    | some v => some v
    | none => if p.1 = k then some p.2 else none

/-! ### Flavour tables (`PROPERTIES_BY_FLAVOUR`, `TERM_TYPES`) -/

/-- `PROPERTIES_BY_FLAVOUR`: per flavour, the
`(label_property, description_property, wider_property)` names. -/
def PROPERTIES_BY_FLAVOUR : List (Str × (Str × Str × Str)) :=
  [(str "RDF Class",
      (str "rdfs:label", str "rdfs:comment", str "rdfs:subClassOf")),
   (str "RDF Property",
      (str "rdfs:label", str "rdfs:comment", str "rdfs:subPropertyOf")),
   (str "SKOS",
      (str "skos:prefLabel", str "skos:definition", str "skos:broader"))]

/-- `TERM_TYPES`: term type by flavour. -/
def TERM_TYPES : List (Str × Str) :=
  [(str "RDF Class", str "rdfs:Class"),
   (str "RDF Property", str "rdf:Property"),
   (str "SKOS", str "skos:Concept")]

def lookupFlavour (f : Str) : Option (Str × Str × Str) :=
  dictGet? PROPERTIES_BY_FLAVOUR f

def lookupTermType (f : Str) : Option Str :=
  dictGet? TERM_TYPES f

/-! ### The vocabulary model (`Vocabulary.__init__` and helpers) -/

/-- The mutable attributes of a `Vocabulary` instance.  The five
flavour-dependent attributes are `Option`s because `_get_vocab_uri` may
return without ever setting them (Python would then raise
`AttributeError` on access). -/
structure VocabState where
  terms : List (Str × (Obj × Obj))
  deprecated_terms : List (Str × List Str)
  preliminary_terms : List Str
  wider_terms : List (Str × List Str)
  errors : List Str
  uri : Str
  flavour : Option Obj
  label_property : Option Str
  description_property : Option Str
  wider_property : Option Str
  term_type : Option Str
  deriving DecidableEq, Repr

/-- The attribute values set at the start of `Vocabulary.__init__`. -/
def initVocabState : VocabState :=
  { terms := []
    deprecated_terms := []
    preliminary_terms := []
    wider_terms := []
    errors := []
    uri := str "Vocabulary URI not found in RDF/X"
    flavour := none
    label_property := none
    description_property := none
    wider_property := none
    term_type := none }

/-- The by-property table type. -/
abbrev ByProp := List (Str × List (Str × Obj))

/-- A raising construction step: on failure it carries the exception and
the state of the half-mutated instance at the raise. -/
abbrev Build (α : Type) := Except (PyError × VocabState) α

/-- Reading a possibly-unset attribute (`AttributeError` when unset). -/
def getAttr (st : VocabState) : Option α → Build α
  | some v => .ok v
  | none => .error (.attributeError, st)

/-- `Vocabulary.to_term`: the term behind the `#` if the URI is in this
vocabulary's namespace (one separator character is dropped along with the
vocabulary URI), the full URI otherwise. -/
def to_term (vuri u : Str) : Str :=
  if startswith u vuri then u.drop (vuri.length + 1) else u

/-- `"{}".format(x)` on a string-or-None value. -/
def formatObj : Obj → Str
  | none => str "None"
  | some v => v

def NO_FLAVOUR_MSG : Str :=
  str "No ivoasem:vocflavour declared.  Is this an IVOA vocabulary?"

def MULTI_FLAVOUR_MSG : Str :=
  str "More than one ivoasem:vocflavour clause found.  Picking one at random.  This is going to be trouble."

def unknownFlavourMsg (f : Obj) : Str :=
  str "Flavour " ++ formatObj f ++
    str " unknown.  This must be one of RDF Class, RDF Property, SKOS."

def useInsteadMsg (t : Str) : Str :=
  str "UseInstead given for non-deprecated term " ++ t ++ str ".  Ignoring."

/-- `Vocabulary._get_vocab_uri`: resolve flavour and URI from the
`ivoasem:vocflavour` entry of the by-property table. -/
def get_vocab_uri (bp : ByProp) (st : VocabState) : Build VocabState :=
  match groupGet bp (str "ivoasem:vocflavour") with
  | [] => .ok { st with errors := st.errors ++ [NO_FLAVOUR_MSG] }
  | pair0 :: rest =>
    let st1 := if rest.isEmpty then st
      else { st with errors := st.errors ++ [MULTI_FLAVOUR_MSG] }
    let st2 := { st1 with uri := pair0.1, flavour := some pair0.2 }
    let fOk := match pair0.2 with
      | some f => (lookupFlavour f).isSome
      | none => false
    let st3 := if fOk then st2
      else { st2 with errors := st2.errors ++ [unknownFlavourMsg pair0.2] }
    match pair0.2 with
    | none => .error (.keyError, st3)
    | some f =>
      match lookupFlavour f, lookupTermType f with
      | some props, some tt =>
        .ok { st3 with
          label_property := some props.1
          description_property := some props.2.1
          wider_property := some props.2.2
          term_type := some tt }
      | _, _ => .error (.keyError, st3)

/-- The `terms`-filling loop of `_build_terms`: for each `rdf:type` pair
whose object is the flavour term type and whose subject is in-namespace,
set the entry of `to_term(subject)` to the label and definition looked
up (by full subject) in dicts built from the label and description
predicate tables. -/
def builtTerms (bp : ByProp) (uri lp dp tt : Str)
    (init : List (Str × (Obj × Obj))) : List (Str × (Obj × Obj)) :=
  (groupGet bp (str "rdf:type")).foldl
    (fun acc so =>
      if decide (so.2 = some tt) && startswith so.1 uri then
        dictInsert (to_term uri so.1)
          (pyGet (dictOfPairs (groupGet bp lp)) so.1,
           pyGet (dictOfPairs (groupGet bp dp)) so.1)
          acc
      else acc)
    init

/-- `Vocabulary._build_terms`: reads the three flavour attributes (an
`AttributeError` when unset) and runs the `terms` loop. -/
def build_terms (bp : ByProp) (st : VocabState) : Build VocabState := do
  let lp ← getAttr st st.label_property
  let dp ← getAttr st st.description_property
  let tt ← getAttr st st.term_type
  return { st with terms := builtTerms bp st.uri lp dp tt st.terms }

/-- One iteration of the `_build_hierarchy` loop.  `setdefault` mutates
`wider_terms` before `to_term` is called on the object, so a `None`
object raises `AttributeError` with the key already created. -/
def hierStep (st : VocabState) (so : Str × Obj) : Build VocabState :=
  if startswith so.1 st.uri then
    let key := to_term st.uri so.1
    match so.2 with
    | none =>
      let preset := if (dictGet? st.wider_terms key).isSome
        then st.wider_terms else st.wider_terms ++ [(key, [])]
      .error (.attributeError, { st with wider_terms := preset })
    | some ov =>
      .ok { st with
        wider_terms := groupAppend key (to_term st.uri ov) st.wider_terms }
  else .ok st

/-- `Vocabulary._build_hierarchy`. -/
def build_hierarchy (bp : ByProp) (st : VocabState) : Build VocabState := do
  let wp ← getAttr st st.wider_property
  (groupGet bp wp).foldlM hierStep st

/-- One iteration of the `useInstead` loop of
`_build_deprecated_terms`: look up the deprecation entry, appending the
replacement on success and recording an error on `KeyError`. -/
def applyUseInstead (st : VocabState) (so : Str × Obj) : Build VocabState :=
  if startswith so.1 st.uri then
    match dictGet? st.deprecated_terms (to_term st.uri so.1) with
    | some _ =>
      match so.2 with
      | none => .error (.attributeError, st)
      | some ov =>
        .ok { st with
          deprecated_terms := groupAppend (to_term st.uri so.1)
            (to_term st.uri ov) st.deprecated_terms }
    | none =>
      .ok { st with
        errors := st.errors ++ [useInsteadMsg (to_term st.uri so.1)] }
  else .ok st

/-- `Vocabulary._build_deprecated_terms`. -/
def build_deprecated_terms (bp : ByProp) (st : VocabState) :
    Build VocabState := do
  let st1 := (groupGet bp (str "ivoasem:deprecated")).foldl
    (fun acc so =>
      if startswith so.1 acc.uri then
        { acc with
          deprecated_terms := dictInsert (to_term acc.uri so.1) []
            acc.deprecated_terms }
      else acc)
    st
  (groupGet bp (str "ivoasem:useInstead")).foldlM applyUseInstead st1

/-- Python `set.add`. -/
def setAdd [DecidableEq α] (x : α) (s : List α) : List α :=
  if x ∈ s then s else s ++ [x]

/-- `Vocabulary._build_preliminary`. -/
def build_preliminary (bp : ByProp) (st : VocabState) : Build VocabState :=
  .ok { st with
    preliminary_terms := (groupGet bp (str "ivoasem:preliminary")).foldl
      (fun acc so =>
        if startswith so.1 st.uri then setAdd (to_term st.uri so.1) acc
        else acc)
      st.preliminary_terms }

/-- `Vocabulary.__init__` / `Vocabulary._build_vocabulary`: group the
triples by property and run the five build steps (`postprocess` is a
no-op). -/
def buildVocabulary (ts : List Triple) : Build VocabState := do
  let bp := buildByProperty ts
  let st ← get_vocab_uri bp initVocabState
  let st ← build_terms bp st
  let st ← build_hierarchy bp st
  let st ← build_deprecated_terms bp st
  let st ← build_preliminary bp st
  return st

/-! ### `ValidatingVocabulary` rule functions -/

/-- The `skos_properties` list of `_validate_clean_flavour`. -/
def skos_properties : List Str :=
  [str "skos:prefLabel", str "skos:definition", str "skos:broader"]

/-- The `forbidden_properties` table of `_validate_clean_flavour`
(`None` models the `KeyError` an unknown flavour would raise). -/
def forbidden_properties (fl : Str) : Option (List Str) :=
  if fl = str "SKOS" then
    some [str "rdfs:subClassOf", str "rdfs:subPropertyOf"]
  else if fl = str "RDF Class" then
    some (str "rdfs:subPropertyOf" :: skos_properties)
  else if fl = str "RDF Property" then
    some (str "rdfs:subClassOf" :: skos_properties)
  else none

/-- The `forbidden_term_types` set of `_validate_clean_flavour`: all
three term types minus the declared flavour's own. -/
def forbidden_term_types (fl : Str) : List Str :=
  [str "rdfs:Class", str "rdf:Property", str "skos:Concept"].filter
    (fun t => lookupTermType fl ≠ some t)

def forbiddenTripleMsg (fl s p : Str) (o : Obj) : Str :=
  str "Forbidden triple in " ++ fl ++ str " vocabularies: " ++ s ++
    str " " ++ p ++ str " " ++ formatObj o

def forbiddenTypeMsg (s ty fl : Str) : Str :=
  s ++ str " has type " ++ ty ++ str ", which is forbidden in " ++ fl ++
    str " vocabularies"

/-- `ValidatingVocabulary._validate_clean_flavour`: returns the
`(warnings, errors)` this step appends.  Warnings come from triples on
the flavour's forbidden-property list (grouped by property, pairs in
encounter order); errors from `rdf:type` triples typed with another
flavour's term type. -/
def validate_clean_flavour (fl : Str) (bp : ByProp) :
    Except PyError (List Str × List Str) :=
  match forbidden_properties fl with
  | none => .error .keyError
  | some props =>
    let warnings := props.foldl
      (fun ws p => ws ++ (groupGet bp p).map
        (fun so => forbiddenTripleMsg fl so.1 p so.2))
      []
    let errors := (groupGet bp (str "rdf:type")).foldl
      (fun es so =>
        match so.2 with
        | some ty =>
          if ty ∈ forbidden_term_types fl then
            es ++ [forbiddenTypeMsg so.1 ty fl]
          else es
        | none => es)
      []
    .ok (warnings, errors)

/-- A character of the class `[A-Za-z0-9_-]` of `_validate_term_form`. -/
def isTermChar (c : Char) : Bool :=
  ('A' ≤ c && c ≤ 'Z') || ('a' ≤ c && c ≤ 'z') ||
    ('0' ≤ c && c ≤ '9') || c = '_' || c = '-'

/-- `re.search("[^A-Za-z0-9_-]+", t)`: the first maximal run of
characters outside the class, if any. -/
def findBadRun : Str → Option Str
  | [] => none
  | c :: rest =>
    if isTermChar c then findBadRun rest
    else some (c :: rest.takeWhile (fun d => !isTermChar d))

def termFormMsg (t run : Str) : Str :=
  str "IVOA terms can only contain ASCII letters, digits, underscores, and dashes; " ++
    t ++ str " has '" ++ run ++ str "'"

/-- `ValidatingVocabulary._validate_term_form`: one error per term key
containing a character outside `[A-Za-z0-9_-]`, citing the first maximal
run of offending characters. -/
def validate_term_form (termKeys : List Str) : List Str :=
  termKeys.foldl
    (fun es t =>
      match findBadRun t with
      | some run => es ++ [termFormMsg t run]
      | none => es)
    []

def treeMsg (term : Str) (wider : List Str) : Str :=
  str "Terms in non-SKOS vocabularies may only have up to one wider term, but " ++
    term ++ str " has " ++ List.intercalate (str ", ") wider ++ str "."

/-- `ValidatingVocabulary._validate_treelike`: one error per
`wider_terms` entry holding more than one wider term. -/
def validate_treelike (wt : List (Str × List Str)) : List Str :=
  wt.foldl
    (fun es p =>
      if 1 < p.2.length then es ++ [treeMsg p.1 p.2] else es)
    []

/-- The flavour dispatch of `ValidatingVocabulary._build_vocabulary`:
`_validate_treelike` runs only for the two non-SKOS flavours. -/
def treelike_errors (fl : Str) (wt : List (Str × List Str)) : List Str :=
  if fl = str "RDF Class" ∨ fl = str "RDF Property" then
    validate_treelike wt
  else []

/-! ### Triple extraction (`Vocabulary.from_file`) -/

/-- `PREFIX_DEF`: namespace URIs to canonical prefixes, in source
order. -/
def PREFIX_DEF : List (Str × Str) :=
  [(str "http://purl.org/dc/terms/", str "dc"),
   (str "http://www.w3.org/1999/02/22-rdf-syntax-ns#", str "rdf"),
   (str "http://www.w3.org/2000/01/rdf-schema#", str "rdfs"),
   (str "http://www.w3.org/2002/07/owl#", str "owl"),
   (str "http://www.w3.org/2004/02/skos/core#", str "skos"),
   (str "http://www.ivoa.net/rdf/ivoasem#", str "ivoasem")]

/-- `prefixify_url`: replace a known namespace prefix of the URL by its
short form (first matching namespace in `PREFIX_DEF` order), leaving the
URL unchanged otherwise. -/
def prefixify_url (u : Str) : Str :=
  match PREFIX_DEF.find? (fun p => startswith u p.1) with
  | some p => p.2 ++ str ":" ++ u.drop p.1.length
  | none => u

/-- The object-triple emission performed by `Vocabulary.from_file` when
an object-generating element closes: the subject is the enclosing
element's `rdf:about` (a `KeyError` if missing), the object is
`attrs.get("rdf:resource", elem.text)` passed through `prefixify_url` —
which calls `re.match` on the value and hence raises `TypeError` when
both the attribute and the text are missing (`None`). -/
def emit_object_triple (parentAttrs : List (Str × Str)) (tagName : Str)
    (attrs : List (Str × Str)) (text : Option Str) :
    Except PyError Triple :=
  match dictGet? parentAttrs (str "rdf:about") with
  | none => .error .keyError
  | some about =>
    let s := prefixify_url about
    match (dictGet? attrs (str "rdf:resource")).orElse (fun _ => text) with
    | none => .error .typeError
    | some ov => .ok (s, tagName, some (prefixify_url ov))

/-! ### Concrete fixtures used by witnesses and counterexamples -/

/-- An aliasing triple set: `u#x` is deprecated, and the distinct
in-namespace subject `u/x` — which has no `ivoasem:deprecated` triple —
carries a `useInstead`; both map to the term `x`. -/
def aliasTriples : List Triple :=
  [(str "u", str "ivoasem:vocflavour", some (str "RDF Class")),
   (str "u#x", str "ivoasem:deprecated", none),
   (str "u/x", str "ivoasem:useInstead", some (str "u#y"))]

/-- A triple set carrying two label triples for the same typed subject. -/
def twoLabelTriples : List Triple :=
  [(str "u#a", str "rdfs:label", some (str "L1")),
   (str "u#a", str "rdfs:label", some (str "L2")),
   (str "u#a", str "rdf:type", some (str "rdfs:Class"))]

/-- A state as produced by `_get_vocab_uri` for an `RDF Class`
vocabulary with URI `u` (the starting point of `_build_terms`). -/
def rdfClassState : VocabState :=
  { initVocabState with
    uri := str "u"
    flavour := some (some (str "RDF Class"))
    label_property := some (str "rdfs:label")
    description_property := some (str "rdfs:comment")
    wider_property := some (str "rdfs:subClassOf")
    term_type := some (str "rdfs:Class") }

/-- The per-type-triple error emission of `_validate_clean_flavour`. -/
def cleanFlavourTypeErr (fl : Str) (so : Str × Obj) : Option Str :=
  match so.2 with
  | some ty =>
    if ty ∈ forbidden_term_types fl then some (forbiddenTypeMsg so.1 ty fl)
    else none
  | none => none

end Revovo

namespace VocValidator

open Revovo (Str str)

/-- One registered `assert_` rule of `vocvalidator.py`, abstracted by its
name and by the outcome of calling it on the vocabulary under test
(`.error m` models the rule raising a fault with message `m`). -/
structure Rule where
  name : Str
  outcome : Except Str Unit
  deriving DecidableEq, Repr

/-- The error entry `Reporter.run_check` reports for a failing rule:
`check.__name__ + ": " + str(msg)`. -/
def checkEntry (r : Rule) (m : Str) : Str := r.name ++ str ": " ++ m

/-- `validate_vocabulary` over `Reporter.run_check`: run every rule in
registration order; a failing rule gets one reported error entry, and in
bail mode its fault is re-raised, aborting the loop and carrying the
entries reported so far. -/
def validate_vocabulary (bail : Bool) :
    List Rule → List Str → Except (Str × List Str) (List Str)
  | [], reported => .ok reported
  | r :: rest, reported =>
    match r.outcome with
    | .ok _ => validate_vocabulary bail rest reported
    | .error m =>
      let reported2 := reported ++ [checkEntry r m]
      if bail then .error (m, reported2)
      else validate_vocabulary bail rest reported2

/-- The error entry of a rule outcome, if the rule failed. -/
def entryOf (r : Rule) : Option Str :=
  match r.outcome with
  | .error m => some (checkEntry r m)
  | .ok _ => none

end VocValidator

namespace Revovo

/-! ### Lemmas about the dictionary model -/

theorem groupGet_nil [DecidableEq α] (k : α) :
    groupGet ([] : List (α × List β)) k = [] := rfl

theorem groupGet_groupAppend [DecidableEq α] (d : List (α × List β))
    (k k' : α) (v : β) :
    groupGet (groupAppend k v d) k' =
      if k' = k then groupGet d k' ++ [v] else groupGet d k' := by
  induction d with
  | nil =>
    by_cases h : k' = k
    · subst h; simp [groupAppend, groupGet]
    · have h' : ¬ k = k' := fun hh => h hh.symm
      simp [groupAppend, groupGet, h, h']
  | cons p rest ih =>
    by_cases hpk : p.1 = k
    · by_cases hpk' : p.1 = k'
      · have hk : k' = k := hpk' ▸ hpk
        simp [groupAppend, groupGet, hpk, hpk', hk]
      · have hk : ¬ k' = k := fun h => hpk' (h ▸ hpk)
        have hk2 : ¬ k = k' := fun h => hk h.symm
        simp [groupAppend, groupGet, hpk, hpk', hk, hk2]
    · by_cases hpk' : p.1 = k'
      · have hk : ¬ k' = k := fun h => hpk (h ▸ hpk')
        simp [groupAppend, groupGet, hpk, hpk', hk]
      · simp [groupAppend, groupGet, hpk, hpk', ih]

theorem groupGet_foldl (ts : List Triple)
    (bp : List (Str × List (Str × Obj))) (p : Str) :
    groupGet (ts.foldl (fun bp t => groupAppend t.2.1 (t.1, t.2.2) bp) bp) p =
      groupGet bp p ++
        (ts.filter (fun t => t.2.1 = p)).map (fun t => (t.1, t.2.2)) := by
  induction ts generalizing bp with
  | nil => simp
  | cons t rest ih =>
    by_cases h : t.2.1 = p
    · simp [List.foldl_cons, ih, groupGet_groupAppend, List.filter_cons, h]
    · have h' : ¬ p = t.2.1 := fun hh => h hh.symm
      simp [List.foldl_cons, ih, groupGet_groupAppend, List.filter_cons, h, h']

/-- Grouping characterization used throughout: the by-property table maps
each predicate to exactly its `(subject, object)` pairs in input order. -/
theorem groupGet_buildByProperty (ts : List Triple) (p : Str) :
    groupGet (buildByProperty ts) p =
      (ts.filter (fun t => t.2.1 = p)).map (fun t => (t.1, t.2.2)) := by
  simpa [buildByProperty] using groupGet_foldl ts [] p

/-- C8: for every finite triple list, the grouped-by-predicate table built
by `_build_vocabulary` maps each predicate `p` to exactly the
`(subject, object)` pairs of the input triples with predicate `p`, in the
same order as supplied and with duplicates retained. -/
theorem C8_group_by_predicate_roundtrip (ts : List Triple) (p : Str) :
    groupGet (buildByProperty ts) p =
      (ts.filter (fun t => t.2.1 = p)).map (fun t => (t.1, t.2.2)) :=
  groupGet_buildByProperty ts p

theorem dictGet_dictInsert [DecidableEq α] (d : List (α × β)) (k k' : α)
    (v : β) :
    dictGet? (dictInsert k v d) k' =
      if k' = k then some v else dictGet? d k' := by
  induction d with
  | nil =>
    by_cases h : k' = k
    · simp [dictInsert, dictGet?, h]
    · have h' : ¬ k = k' := fun hh => h hh.symm
      simp [dictInsert, dictGet?, h, h']
  | cons p rest ih =>
    by_cases hpk : p.1 = k
    · by_cases hk : k' = k
      · simp [dictInsert, dictGet?, hpk, hk]
      · have hk2 : ¬ k = k' := fun h => hk h.symm
        have hpk' : ¬ p.1 = k' := fun h => hk (hpk.symm.trans h).symm
        simp [dictInsert, dictGet?, hpk, hk, hk2, hpk']
    · by_cases hpk' : p.1 = k'
      · have hk : ¬ k' = k := fun h => hpk (h ▸ hpk')
        simp [dictInsert, dictGet?, hpk, hpk', hk]
      · simp [dictInsert, dictGet?, hpk, hpk', ih]

theorem lastVal_append [DecidableEq α] (k : α) (l₁ l₂ : List (α × β)) :
    lastVal k (l₁ ++ l₂) =
      match lastVal k l₂ with
      | some v => some v
      | none => lastVal k l₁ := by
  induction l₁ with
  | nil => cases h : lastVal k l₂ <;> simp [lastVal, h]
  | cons p rest ih =>
    rw [List.cons_append]
    show (match lastVal k (rest ++ l₂) with
          | some v => some v
          | none => if p.1 = k then some p.2 else none) = _
    rw [ih]
    cases h : lastVal k l₂ with
    | none => rfl
    | some v => rfl

theorem lastVal_of_not_mem [DecidableEq α] (k : α) (l : List (α × β))
    (h : ∀ p ∈ l, p.1 ≠ k) : lastVal k l = none := by
  induction l with
  | nil => rfl
  | cons p rest ih =>
    have hp : p.1 ≠ k := h p (by simp)
    have hrest := ih (fun q hq => h q (by simp [hq]))
    simp [lastVal, hrest, hp]

theorem lastVal_of_all_eq [DecidableEq α] (k : α) (v : β)
    (l : List (α × β)) (hex : ∃ p ∈ l, p.1 = k)
    (hall : ∀ p ∈ l, p.1 = k → p.2 = v) : lastVal k l = some v := by
  induction l with
  | nil => simp at hex
  | cons p rest ih =>
    by_cases hrest : ∃ q ∈ rest, q.1 = k
    · have := ih hrest (fun q hq hqk => hall q (by simp [hq]) hqk)
      simp [lastVal, this]
    · have hnone : lastVal k rest = none :=
        lastVal_of_not_mem k rest
          (fun q hq hqk => hrest ⟨q, hq, hqk⟩)
      have hpk : p.1 = k := by
        rcases hex with ⟨q, hq, hqk⟩
        rcases List.mem_cons.mp hq with h | h
        · exact h ▸ hqk
        · exact absurd ⟨q, h, hqk⟩ hrest
      have hpv : p.2 = v := hall p (by simp) hpk
      simp [lastVal, hnone, hpk, hpv]

/-- Lookup after a conditional-insert fold: the result for key `k` is the
last inserted value for `k`, falling back to the initial dict. -/
theorem dictGet_foldl_ins [DecidableEq α] (cond : γ → Bool)
    (keyOf : γ → α) (valOf : γ → β) (l : List γ) (d : List (α × β))
    (k : α) :
    dictGet? (l.foldl (fun acc p =>
        if cond p then dictInsert (keyOf p) (valOf p) acc else acc) d) k =
      match lastVal k ((l.filter cond).map (fun p => (keyOf p, valOf p))) with
      | some v => some v
      | none => dictGet? d k := by
  induction l generalizing d with
  | nil => simp [lastVal]
  | cons p rest ih =>
    by_cases hc : cond p
    · simp only [List.foldl_cons, hc, if_pos, List.filter_cons,
        List.map_cons, lastVal, ih]
      cases h : lastVal k ((rest.filter cond).map
          (fun p => (keyOf p, valOf p))) with
      | some v => simp
      | none =>
        simp only [dictGet_dictInsert]
        by_cases hk : k = keyOf p
        · simp [hk]
        · have hk' : ¬ keyOf p = k := fun h => hk h.symm
          simp [hk, hk']
    · simp only [List.foldl_cons, hc, if_neg, List.filter_cons, ih]
      simp [hc]

theorem dictGet_dictOfPairs [DecidableEq α] (ps : List (α × β)) (k : α) :
    dictGet? (dictOfPairs ps) k = lastVal k ps := by
  have h := dictGet_foldl_ins (fun _ => true) Prod.fst Prod.snd ps
    ([] : List (α × β)) k
  simp only [if_pos, List.filter_true] at h
  have hps : (ps.map (fun p => (p.1, p.2))) = ps := by
    simp
  rw [dictOfPairs, h, hps]
  cases hl : lastVal k ps with
  | none => rfl
  | some v => rfl

/-! ### Emission-loop helpers -/

/-- A loop appending at most one diagnostic per element equals a
`filterMap` over the list. -/
theorem foldl_step_filterMap (f : α → Option β) (step : List β → α → List β)
    (hstep : ∀ es x, step es x = es ++ (f x).toList) :
    ∀ (l : List α) (acc : List β),
      l.foldl step acc = acc ++ l.filterMap f := by
  intro l
  induction l with
  | nil => intro acc; simp
  | cons x rest ih =>
    intro acc
    rw [List.foldl_cons, hstep, ih]
    cases h : f x <;> simp [h, List.filterMap_cons]

/-- A loop appending a batch of diagnostics per element equals a
`flatMap` over the list. -/
theorem foldl_step_flatMap (f : α → List β) (step : List β → α → List β)
    (hstep : ∀ es x, step es x = es ++ f x) :
    ∀ (l : List α) (acc : List β),
      l.foldl step acc = acc ++ l.flatMap f := by
  intro l
  induction l with
  | nil => intro acc; simp
  | cons x rest ih =>
    intro acc
    rw [List.foldl_cons, hstep, ih]
    simp

theorem isPrefixOf_append (u t : List Char) :
    List.isPrefixOf u (u ++ t) = true := by
  induction u with
  | nil => simp
  | cons c rest ih => simp [List.isPrefixOf_cons₂, ih]

/-! ### C2: `to_term` -/

/-- C2 counterexample: `to_term` does not return the argument with
exactly the vocabulary URI removed — for `uri = "a"` and the in-namespace
string `"ab"` it drops one further character. -/
theorem C2_counterexample :
    startswith (str "ab") (str "a") = true ∧
    to_term (str "a") (str "ab") ≠ (str "ab").drop (str "a").length := by
  decide

/-- C2 (amended): for every vocabulary URI `U`, a string of the form
`U ++ c :: rest` (the URI, one separator character, then the term) is
mapped by `to_term` to `rest` — i.e. the URI prefix plus one separator
character is stripped — and a string not starting with `U` is returned
unchanged. -/
theorem C2_to_term_strip (u x : Str) :
    (∀ (c : Char) (rest : Str), x = u ++ c :: rest → to_term u x = rest) ∧
    (startswith x u = false → to_term u x = x) := by
  constructor
  · intro c rest hx
    subst hx
    have hpre : startswith (u ++ c :: rest) u = true := by
      unfold startswith
      exact isPrefixOf_append u (c :: rest)
    have hsplit : u ++ c :: rest = (u ++ [c]) ++ rest := by simp
    have hlen : u.length + 1 = (u ++ [c]).length := by simp
    rw [to_term, if_pos hpre, hlen, hsplit, List.drop_left]
  · intro h
    rw [to_term, if_neg]
    rw [h]
    simp

/-- Witness for C2: with `uri = "a"`, `to_term` maps `"a#b"` to `"b"`
and leaves the foreign string `"z"` unchanged. -/
theorem C2_witness :
    to_term (str "a") (str "a#b") = str "b" ∧
    to_term (str "a") (str "z") = str "z" :=
  ⟨(C2_to_term_strip (str "a") (str "a#b")).1 '#' (str "b") (by decide),
   (C2_to_term_strip (str "a") (str "z")).2 (by decide)⟩

/-! ### C4: tree shape -/

/-- `filterMap` of a guarded function is a `filter` then `map`. -/
theorem filterMap_ite {P : α → Prop} [DecidablePred P] (g : α → β)
    (l : List α) :
    l.filterMap (fun x => if P x then some (g x) else none) =
      (l.filter (fun x => decide (P x))).map g := by
  induction l with
  | nil => rfl
  | cons x rest ih =>
    by_cases h : P x <;>
      simp [List.filterMap_cons, List.filter_cons, h, ih]

theorem validate_treelike_eq (wt : List (Str × List Str)) :
    validate_treelike wt =
      (wt.filter (fun p => 1 < p.2.length)).map
        (fun p => treeMsg p.1 p.2) := by
  rw [validate_treelike,
    foldl_step_filterMap
      (fun p => if 1 < p.2.length then some (treeMsg p.1 p.2) else none)
      _ ?hstep wt [], List.nil_append, filterMap_ite]
  case hstep =>
    intro es p
    by_cases h : 1 < p.2.length <;> simp [h]

/-- C4: for non-SKOS flavours, `_validate_treelike` produces exactly one
error for each `wider_terms` entry with more than one wider term — the
message naming the term and all its parents in encounter order — and no
error for entries with at most one wider term. -/
theorem C4_treelike_errors (fl : Str) (wt : List (Str × List Str))
    (hfl : fl = str "RDF Class" ∨ fl = str "RDF Property") :
    treelike_errors fl wt =
      (wt.filter (fun p => 1 < p.2.length)).map
        (fun p => treeMsg p.1 p.2) := by
  rw [treelike_errors, if_pos hfl, validate_treelike_eq]

/-- Witness for C4: a two-parent term yields exactly its one error, a
one-parent term yields none. -/
theorem C4_witness :
    treelike_errors (str "RDF Class")
        [(str "t", [str "a", str "b"]), (str "s", [str "c"])] =
      [treeMsg (str "t") [str "a", str "b"]] := by
  rw [C4_treelike_errors (str "RDF Class") _ (Or.inl rfl)]
  decide

/-! ### C3: flavour purity -/

theorem validate_clean_flavour_eq (fl : Str) (props : List Str)
    (bp : ByProp) (hfl : forbidden_properties fl = some props) :
    validate_clean_flavour fl bp =
      .ok (props.flatMap
            (fun p => (groupGet bp p).map
              (fun so => forbiddenTripleMsg fl so.1 p so.2)),
           (groupGet bp (str "rdf:type")).filterMap
             (cleanFlavourTypeErr fl)) := by
  simp only [validate_clean_flavour, hfl]
  rw [foldl_step_flatMap
    (fun p => (groupGet bp p).map (fun so => forbiddenTripleMsg fl so.1 p so.2))
    _ (fun es x => rfl) props []]
  rw [foldl_step_filterMap (cleanFlavourTypeErr fl) _ ?hstep _ []]
  · rw [List.nil_append, List.nil_append]
  case hstep =>
    intro es so
    rcases so with ⟨s, o⟩
    cases o with
    | none => simp [cleanFlavourTypeErr]
    | some ty =>
      by_cases h : ty ∈ forbidden_term_types fl <;>
        simp [cleanFlavourTypeErr, h]

/-- C3 counterexample: in a SKOS vocabulary, a triple whose predicate is
`rdfs:label` — the label predicate reserved for the (different) flavour
RDF Class — produces no forbidden-property warning at all. -/
theorem C3_counterexample :
    validate_clean_flavour (str "SKOS")
        (buildByProperty [(str "u#t", str "rdfs:label", some (str "lab"))]) =
      .ok ([], []) ∧
    lookupFlavour (str "RDF Class") =
      some (str "rdfs:label", str "rdfs:comment", str "rdfs:subClassOf") ∧
    str "RDF Class" ≠ str "SKOS" := by
  decide

/-- C3 (amended): with a known flavour, `_validate_clean_flavour` warns
exactly on the triples whose predicate is in the flavour's fixed
forbidden-property list — for SKOS only the two RDF hierarchy
predicates (`rdfs:label`/`rdfs:comment` are tolerated), for RDF Class
`rdfs:subPropertyOf` plus the three SKOS predicates, for RDF Property
`rdfs:subClassOf` plus the three SKOS predicates — and records one error
for every `rdf:type` triple whose object is another flavour's term
type. -/
theorem C3_clean_flavour (fl : Str) (props : List Str) (ts : List Triple)
    (hfl : forbidden_properties fl = some props) :
    validate_clean_flavour fl (buildByProperty ts) =
      .ok (props.flatMap
            (fun p => (ts.filter (fun t => t.2.1 = p)).map
              (fun t => forbiddenTripleMsg fl t.1 p t.2.2)),
           (ts.filter (fun t => t.2.1 = str "rdf:type")).filterMap
             (fun t => cleanFlavourTypeErr fl (t.1, t.2.2))) := by
  rw [validate_clean_flavour_eq fl props _ hfl]
  refine congrArg _ (congrArg₂ _ ?_ ?_)
  · refine congrArg _ (funext (fun p => ?_))
    rw [groupGet_buildByProperty, List.map_map]
    rfl
  · rw [groupGet_buildByProperty, List.filterMap_map]
    rfl

/-- Witness for C3: in a SKOS vocabulary, an `rdfs:subClassOf` triple is
warned about and a subject typed `rdf:Property` is an error. -/
theorem C3_witness :
    validate_clean_flavour (str "SKOS")
        (buildByProperty
          [(str "s", str "rdfs:subClassOf", some (str "o")),
           (str "s2", str "rdf:type", some (str "rdf:Property"))]) =
      .ok ([forbiddenTripleMsg (str "SKOS") (str "s")
              (str "rdfs:subClassOf") (some (str "o"))],
           [forbiddenTypeMsg (str "s2") (str "rdf:Property")
              (str "SKOS")]) := by
  rw [C3_clean_flavour (str "SKOS")
    [str "rdfs:subClassOf", str "rdfs:subPropertyOf"] _ (by decide)]
  decide

/-! ### C7: identifier form -/

theorem validate_term_form_eq (termKeys : List Str) :
    validate_term_form termKeys =
      termKeys.filterMap
        (fun t => (findBadRun t).map (fun run => termFormMsg t run)) := by
  rw [validate_term_form,
    foldl_step_filterMap
      (fun t => (findBadRun t).map (fun run => termFormMsg t run))
      _ ?hstep termKeys [], List.nil_append]
  case hstep =>
    intro es t
    cases h : findBadRun t <;> simp [h]

theorem findBadRun_none_iff (t : Str) :
    findBadRun t = none ↔ ∀ c ∈ t, isTermChar c = true := by
  induction t with
  | nil => simp [findBadRun]
  | cons c rest ih =>
    by_cases h : isTermChar c
    · simp [findBadRun, h, ih]
    · apply iff_of_false
      · simp [findBadRun, h]
      · intro hall
        exact h (hall c (by simp))

theorem findBadRun_some (t run : Str) (h : findBadRun t = some run) :
    run ≠ [] ∧ ∀ c ∈ run, isTermChar c = false ∧ c ∈ t := by
  induction t generalizing run with
  | nil => cases h
  | cons c rest ih =>
    by_cases hc : isTermChar c
    · rw [findBadRun, if_pos hc] at h
      obtain ⟨hne, hall⟩ := ih run h
      exact ⟨hne, fun d hd =>
        ⟨(hall d hd).1, List.mem_cons_of_mem c (hall d hd).2⟩⟩
    · rw [findBadRun, if_neg hc] at h
      injection h with h
      subst h
      refine ⟨by simp, ?_⟩
      intro d hd
      rcases List.mem_cons.mp hd with hdc | hd
      · subst hdc
        exact ⟨Bool.eq_false_iff.mpr hc, by simp⟩
      · have hp := List.mem_takeWhile_imp hd
        have hmem : d ∈ rest := (List.takeWhile_prefix _).subset hd
        refine ⟨?_, by simp [hmem]⟩
        cases hv : isTermChar d
        · rfl
        · rw [hv] at hp; cases hp

/-- C7: `_validate_term_form` appends exactly one error per term key
containing a character outside `[A-Za-z0-9_-]` (the message citing a
nonempty run of offending characters drawn from the key) and none for
keys all of whose characters are in the class; in particular the key
`$ANYTHING` yields exactly one error citing `$`. -/
theorem C7_term_form (termKeys : List Str) :
    (validate_term_form termKeys =
      termKeys.filterMap
        (fun t => (findBadRun t).map (fun run => termFormMsg t run))) ∧
    (∀ t : Str, findBadRun t = none ↔ ∀ c ∈ t, isTermChar c = true) ∧
    (∀ t run : Str, findBadRun t = some run →
      run ≠ [] ∧ ∀ c ∈ run, isTermChar c = false ∧ c ∈ t) ∧
    validate_term_form [str "$ANYTHING"] =
      [termFormMsg (str "$ANYTHING") [ '$' ]] := by
  refine ⟨validate_term_form_eq termKeys, findBadRun_none_iff,
    findBadRun_some, ?_⟩
  decide

/-- Witness for C7: the `$ANYTHING` instance, plus a clean key having no
error via the iff of the theorem. -/
theorem C7_witness :
    validate_term_form [str "$ANYTHING"] =
        [termFormMsg (str "$ANYTHING") [ '$' ]] ∧
      findBadRun (str "Good-key_2") = none :=
  ⟨(C7_term_form []).2.2.2,
    ((C7_term_form []).2.1 (str "Good-key_2")).mpr (by decide)⟩

/-! ### C6: useInstead on a non-deprecated term -/

/-- C6 counterexample: in `aliasTriples` the in-namespace subject `u/x`
carries a `useInstead` triple and has no `ivoasem:deprecated` triple,
yet construction records no error and the replacement is kept (the
deprecation entry of the aliased subject `u#x` absorbs it, because the
lookup is keyed on `to_term`). -/
theorem C6_counterexample :
    buildVocabulary aliasTriples =
      .ok { rdfClassState with
        deprecated_terms := [(str "x", [str "y"])] } ∧
    startswith (str "u/x") (str "u") = true ∧
    (aliasTriples.filter
      (fun t => t.1 = str "u/x" ∧ t.2.1 = str "ivoasem:deprecated")) = [] ∧
    (str "u/x", str "ivoasem:useInstead", some (str "u#y")) ∈ aliasTriples := by
  decide

/-- C6 (amended): processing a `useInstead` pair whose in-namespace
subject maps to a term with no entry in `deprecated_terms` (i.e. no
in-namespace `ivoasem:deprecated` subject mapping to the same term)
appends the `UseInstead given for non-deprecated term` error naming
`to_term(s)`, raises nothing, and leaves `deprecated_terms` unchanged —
the replacement is dropped. -/
theorem C6_use_instead_not_deprecated (st : VocabState) (s : Str) (o : Obj)
    (hns : startswith s st.uri = true)
    (hmiss : dictGet? st.deprecated_terms (to_term st.uri s) = none) :
    applyUseInstead st (s, o) =
      .ok { st with
        errors := st.errors ++ [useInsteadMsg (to_term st.uri s)] } := by
  simp [applyUseInstead, hns, hmiss]

/-- Witness for C6: a concrete non-deprecated in-namespace subject. -/
theorem C6_witness :
    applyUseInstead { initVocabState with uri := str "u" }
        (str "u#q", some (str "u#r")) =
      .ok { initVocabState with
        uri := str "u", errors := [useInsteadMsg (str "q")] } := by
  rw [C6_use_instead_not_deprecated { initVocabState with uri := str "u" }
    (str "u#q") (some (str "u#r")) (by decide) (by decide)]
  decide

/-! ### C1: construction without a flavour declaration -/

/-- C1 counterexample: constructing from the empty triple list records
the `No ivoasem:vocflavour declared` error and leaves `uri` at the
sentinel with all term maps empty, but then raises an `AttributeError`
(in `_build_terms`, reading the never-set `label_property`) instead of
completing without an exception. -/
theorem C1_counterexample :
    buildVocabulary [] =
      .error (.attributeError,
        { initVocabState with errors := [NO_FLAVOUR_MSG] }) := by
  decide

/-- C1 (amended): for every triple list with no `ivoasem:vocflavour`
triple, construction records the no-flavour error, leaves `uri` at the
sentinel and all of `terms`, `wider_terms`, `deprecated_terms`,
`preliminary_terms` empty, and then raises `AttributeError` in
`_build_terms` (the flavour-specific attributes were never set) rather
than completing. -/
theorem C1_no_flavour_raises (ts : List Triple)
    (h : ∀ t ∈ ts, t.2.1 ≠ str "ivoasem:vocflavour") :
    buildVocabulary ts =
      .error (.attributeError,
        { initVocabState with errors := [NO_FLAVOUR_MSG] }) := by
  have hbp : groupGet (buildByProperty ts) (str "ivoasem:vocflavour") = [] := by
    rw [groupGet_buildByProperty]
    have hnil : ts.filter (fun t => t.2.1 = str "ivoasem:vocflavour") = [] := by
      rw [List.filter_eq_nil_iff]
      intro t ht
      simpa using h t ht
    rw [hnil]
    rfl
  rw [buildVocabulary]
  simp [get_vocab_uri, hbp, build_terms, getAttr, initVocabState,
    Bind.bind, Except.bind]

/-- Witness for C1: a nonempty triple list without a flavour
declaration. -/
theorem C1_witness :
    buildVocabulary [(str "a", str "rdfs:label", some (str "b"))] =
      .error (.attributeError,
        { initVocabState with errors := [NO_FLAVOUR_MSG] }) :=
  C1_no_flavour_raises [(str "a", str "rdfs:label", some (str "b"))]
    (by decide)

/-! ### C10: repeated label/definition triples -/

/-- The value `_build_terms` looks up for subject `s` in the dict built
from the pairs of predicate `p` is the object of the last triple
`(s, p, _)` of the input, provided no later triple has that subject and
predicate. -/
theorem pyGet_last (ts : List Triple) (p s : Str) (pre post : List Triple)
    (v : Obj) (hsplit : ts = pre ++ (s, p, v) :: post)
    (hlast : ∀ t ∈ post, t.1 = s → t.2.1 ≠ p) :
    pyGet (dictOfPairs (groupGet (buildByProperty ts) p)) s = v := by
  subst hsplit
  rw [pyGet, dictGet_dictOfPairs, groupGet_buildByProperty,
    List.filter_append, List.filter_cons]
  have hself : (decide (((s, p, v) : Triple).2.1 = p)) = true := by simp
  rw [hself]
  simp only [if_pos, List.map_append, List.map_cons, lastVal_append]
  have hB : lastVal s ((post.filter (fun t => t.2.1 = p)).map
      (fun t => (t.1, t.2.2))) = none := by
    apply lastVal_of_not_mem
    intro q hq
    rcases List.mem_map.mp hq with ⟨t, ht, rfl⟩
    have hmem := List.mem_filter.mp ht
    intro hqs
    exact hlast t hmem.1 hqs (by simpa using hmem.2)
  simp [lastVal, hB]

/-- C10: when an in-namespace typed subject `s` carries several label
triples, the `terms` entry built for it holds the object of the last
label triple in input order (earlier ones are silently overwritten), and
symmetrically the definition slot holds the last definition triple's
object. -/
theorem C10_last_label_wins (ts : List Triple) (st : VocabState)
    (lp dp tt s : Str) (pre post : List Triple) (lab : Obj)
    (hlp : st.label_property = some lp)
    (hdp : st.description_property = some dp)
    (htt : st.term_type = some tt)
    (hsplit : ts = pre ++ (s, lp, lab) :: post)
    (hlast : ∀ t ∈ post, t.1 = s → t.2.1 ≠ lp)
    (htyped : (s, some tt) ∈ groupGet (buildByProperty ts) (str "rdf:type"))
    (hns : startswith s st.uri = true)
    (huniq : ∀ q ∈ groupGet (buildByProperty ts) (str "rdf:type"),
      q.2 = some tt → startswith q.1 st.uri = true →
      to_term st.uri q.1 = to_term st.uri s → q.1 = s) :
    (∃ st2, build_terms (buildByProperty ts) st = .ok st2 ∧
      dictGet? st2.terms (to_term st.uri s) =
        some (lab,
          pyGet (dictOfPairs (groupGet (buildByProperty ts) dp)) s)) ∧
    (∀ (dpre dpost : List Triple) (dv : Obj),
      ts = dpre ++ (s, dp, dv) :: dpost →
      (∀ t ∈ dpost, t.1 = s → t.2.1 ≠ dp) →
      pyGet (dictOfPairs (groupGet (buildByProperty ts) dp)) s = dv) := by
  constructor
  · have hlab : pyGet (dictOfPairs (groupGet (buildByProperty ts) lp)) s =
        lab := pyGet_last ts lp s pre post lab hsplit hlast
    refine ⟨{ st with
      terms := builtTerms (buildByProperty ts) st.uri lp dp tt st.terms },
      ?_, ?_⟩
    · rw [build_terms, hlp, hdp, htt]
      rfl
    · show dictGet? (builtTerms (buildByProperty ts) st.uri lp dp tt
        st.terms) (to_term st.uri s) = _
      rw [builtTerms]
      rw [dictGet_foldl_ins
        (fun (so : Str × Obj) =>
          decide (so.2 = some tt) && startswith so.1 st.uri)
        (fun (so : Str × Obj) => to_term st.uri so.1)
        (fun (so : Str × Obj) =>
          (pyGet (dictOfPairs (groupGet (buildByProperty ts) lp)) so.1,
           pyGet (dictOfPairs (groupGet (buildByProperty ts) dp)) so.1))]
      rw [lastVal_of_all_eq (to_term st.uri s)
        (pyGet (dictOfPairs (groupGet (buildByProperty ts) lp)) s,
         pyGet (dictOfPairs (groupGet (buildByProperty ts) dp)) s)]
      · rw [hlab]
      · refine ⟨(to_term st.uri s,
          (pyGet (dictOfPairs (groupGet (buildByProperty ts) lp)) s,
           pyGet (dictOfPairs (groupGet (buildByProperty ts) dp)) s)), ?_, rfl⟩
        apply List.mem_map.mpr
        refine ⟨(s, some tt), ?_, rfl⟩
        apply List.mem_filter.mpr
        exact ⟨htyped, by simp [hns]⟩
      · intro q hq hqk
        rcases List.mem_map.mp hq with ⟨so, hso, rfl⟩
        have hmem := List.mem_filter.mp hso
        have hcond := hmem.2
        have hso2 : so.2 = some tt := by
          have := Bool.and_elim_left hcond
          simpa using this
        have hsns : startswith so.1 st.uri = true :=
          Bool.and_elim_right hcond
        have hs1 : so.1 = s := huniq so hmem.1 hso2 hsns (by simpa using hqk)
        simp [hs1]
  · intro dpre dpost dv hdsplit hdlast
    exact pyGet_last ts dp s dpre dpost dv hdsplit hdlast

/-- Witness for C10: with two label triples for `u#a`, the entry for
term `a` holds the second label `L2`. -/
theorem C10_witness :
    ∃ st2, build_terms (buildByProperty twoLabelTriples) rdfClassState =
        .ok st2 ∧
      dictGet? st2.terms (str "a") = some (some (str "L2"), none) := by
  obtain ⟨⟨st2, h1, h2⟩, _⟩ :=
    C10_last_label_wins twoLabelTriples rdfClassState
      (str "rdfs:label") (str "rdfs:comment") (str "rdfs:Class")
      (str "u#a")
      [(str "u#a", str "rdfs:label", some (str "L1"))]
      [(str "u#a", str "rdf:type", some (str "rdfs:Class"))]
      (some (str "L2"))
      rfl rfl rfl (by decide) (by decide) (by decide) (by decide)
      (by decide)
  have e1 : to_term rdfClassState.uri (str "u#a") = str "a" := by decide
  have e2 : pyGet (dictOfPairs (groupGet (buildByProperty twoLabelTriples)
      (str "rdfs:comment"))) (str "u#a") = none := by decide
  rw [e1, e2] at h2
  exact ⟨st2, h1, h2⟩

/-! ### C9: object-generating elements with no object -/

/-- C9: closing an object-generating element (here
`ivoasem:deprecated`) with neither an `rdf:resource` attribute nor text
content does not emit a triple with a null object — `from_file` feeds
`None` to `prefixify_url`, whose `re.match` raises `TypeError`, aborting
extraction; with text content present the same element closes fine. -/
theorem C9_missing_object_raises :
    emit_object_triple
        [(str "rdf:about", str "http://www.ivoa.net/rdf/test#t")]
        (str "ivoasem:deprecated") [] none = .error .typeError ∧
    emit_object_triple
        [(str "rdf:about", str "http://www.ivoa.net/rdf/test#t")]
        (str "ivoasem:deprecated") [] (some (str "w")) =
      .ok (str "http://www.ivoa.net/rdf/test#t",
        str "ivoasem:deprecated", some (str "w")) := by
  decide

end Revovo

namespace VocValidator

open Revovo (Str str)

theorem validate_vocabulary_false_eq (rules : List Rule) (rep : List Str) :
    validate_vocabulary false rules rep =
      .ok (rep ++ rules.filterMap entryOf) := by
  induction rules generalizing rep with
  | nil => simp [validate_vocabulary]
  | cons r rest ih =>
    cases h : r.outcome with
    | ok v =>
      simp [validate_vocabulary, h, ih, List.filterMap_cons, entryOf]
    | error m =>
      simp [validate_vocabulary, h, ih, List.filterMap_cons, entryOf]

theorem validate_vocabulary_true_skip (pre rules : List Rule)
    (rep : List Str) (h : ∀ q ∈ pre, q.outcome = .ok ()) :
    validate_vocabulary true (pre ++ rules) rep =
      validate_vocabulary true rules rep := by
  induction pre with
  | nil => rfl
  | cons q qs ih =>
    have hq : q.outcome = .ok () := h q (by simp)
    rw [List.cons_append, validate_vocabulary, hq]
    exact ih (fun p hp => h p (by simp [hp]))

/-- C5: the engine of `validate_vocabulary`/`Reporter.run_check` runs
every registered rule even after earlier failures, each failing rule
contributing exactly one error entry `name + ": " + message`; with
`bail` requested, the first failing rule's fault propagates to the
caller right after its (sole) entry is reported; with `bail` and no
failing rule, nothing is reported or raised. -/
theorem C5_rule_engine (rules : List Rule) :
    (validate_vocabulary false rules [] =
      .ok (rules.filterMap entryOf)) ∧
    (∀ (pre : List Rule) (r : Rule) (post : List Rule) (m : Str),
      rules = pre ++ r :: post →
      (∀ q ∈ pre, q.outcome = .ok ()) →
      r.outcome = .error m →
      validate_vocabulary true rules [] = .error (m, [checkEntry r m])) ∧
    ((∀ q ∈ rules, q.outcome = .ok ()) →
      validate_vocabulary true rules [] = .ok []) := by
  refine ⟨by simpa using validate_vocabulary_false_eq rules [], ?_, ?_⟩
  · intro pre r post m hsplit hpre hr
    subst hsplit
    rw [validate_vocabulary_true_skip pre (r :: post) [] hpre,
      validate_vocabulary, hr]
    simp
  · intro hall
    have := validate_vocabulary_true_skip rules [] [] hall
    rw [List.append_nil] at this
    rw [this]
    rfl

/-- Witness for C5: a concrete two-rule run in both modes — without
`bail` the failing first rule does not stop the succeeding second rule
(and contributes its one entry); with `bail` its fault propagates. -/
theorem C5_witness :
    validate_vocabulary false
        [⟨str "assert_a", .error (str "boom")⟩,
         ⟨str "assert_b", .ok ()⟩] [] =
      .ok [checkEntry ⟨str "assert_a", .error (str "boom")⟩ (str "boom")] ∧
    validate_vocabulary true
        [⟨str "assert_a", .error (str "boom")⟩,
         ⟨str "assert_b", .ok ()⟩] [] =
      .error (str "boom",
        [checkEntry ⟨str "assert_a", .error (str "boom")⟩ (str "boom")]) := by
  constructor
  · rw [(C5_rule_engine _).1]
    decide
  · exact (C5_rule_engine _).2.1 []
      ⟨str "assert_a", .error (str "boom")⟩
      [⟨str "assert_b", .ok ()⟩] (str "boom") rfl
      (by intro q hq; cases hq) rfl

end VocValidator
